import Mathlib

/-
Shallow embedding of the TrackingStateMachine engine
(tracking_state.py, tracking_state_machine.py, transition_parameter.py, errors.py).

Modelling conventions:
  * Python dicts are association lists `List (String × α)` read through
    `List.lookup`; `dictUpdate` models `dict.update({k: v})` (replace the
    binding when the key is present, append it otherwise).
  * Python exceptions are the `PyErr` inductive; a call that can raise is
    embedded as an `Except PyErr` value.  In-place mutation of an argument
    dict is embedded by also returning the dict's post-call contents.
  * A host-supplied lazy validation sequence (a Python generator whose full
    consumption performs the store mutation) is a `GenOut`: the list of
    yielded `TransitionValidationResult`s plus the committing store effect
    that runs exactly when consumption moves past the last yielded result.
  * Item-type classes are embedded by the list of validation predicates the
    class attaches to its instances; predicates receive the item's attribute
    dict (Python predicates receive the item object and read its attributes).
  * A state's transition-named methods (`getattr(from_state, name)`) are the
    partial map `ops`; `_track` is the host-provided track sequence.
-/

namespace TSM

/-- errors.py, plus the Python builtins the engine can leak
(`KeyError` from `_validated_item`, `AttributeError` from `getattr`). -/
inductive PyErr where
  | stateValidationError (msg : String)
  | transitionValidationError (msg : String)
  | transitionFatalError (msg : String)
  | transitionActionError (msg : String)
  | keyError (key : String)
  | attributeError (nm : String)
deriving DecidableEq

/-- transition_parameter.py: `TransitionParameter(name, value=None)`. -/
structure TransitionParameter (V : Type) where
  name : String
  value : Option V

/-- An attribute value in an item dict: either a resolved value or an
unresolved `TransitionParameter` placeholder. -/
inductive AttrValue (V : Type) where
  | val (v : V)
  | param (p : TransitionParameter V)

/-- A Python dict of item attributes. -/
abbrev ItemDict (V : Type) := List (String × AttrValue V)

/-- `d.update({k: v})` on a Python dict: replace the binding of `k` when
present, append it otherwise. -/
def dictUpdate {α : Type} (d : List (String × α)) (k : String) (v : α) :
    List (String × α) :=
  if (List.lookup k d).isSome then
    d.map fun kv => if kv.1 == k then (k, v) else kv
  else
    d ++ [(k, v)]

/-- tracking_state.py `TrackingItem`: attributes plus the attached
validation predicates. -/
structure TrackingItem (V : Type) where
  attrs : ItemDict V
  validations : List (ItemDict V → Bool)

/-- `TrackingItem.validate`: `reduce(operator.and_, map(lambda f: f(self),
self.validations), True)`. -/
def TrackingItem.validate {V : Type} (it : TrackingItem V) : Bool :=
  (it.validations.map fun f => f it.attrs).foldl (· && ·) true

/-- tracking_state.py `TransitionValidationResult`. -/
structure TransitionValidationResult (V : Type) where
  success : Bool
  message : String
  parameters : List (String × V)

/-- `succeeded`: `self.success is True`. -/
def TransitionValidationResult.succeeded {V : Type}
    (r : TransitionValidationResult V) : Bool :=
  r.success

/-- A state's item store (concrete storage is host-defined; a list of
tracked items is the canonical model). -/
abbrev Store (V : Type) := List (TrackingItem V)

/-- One invocation of a host-supplied lazy validation sequence: the yielded
results and the committing store mutation performed by full consumption. -/
structure GenOut (V : Type) where
  results : List (TransitionValidationResult V)
  commit : Store V → Store V

/-- tracking_state.py `TrackingState`.  `itemValidations` is the predicate
list its `item_type` attaches to constructed items; `ops` models
`getattr(state, name)` for the host's transition-named methods; `_track` is
the host's internal track sequence. -/
structure TrackingState (V : Type) where
  name : String
  itemValidations : List (ItemDict V → Bool)
  ops : String → Option (TrackingItem V → GenOut V)
  _track : TrackingItem V → GenOut V

/-- `self.item_type(item_dict)`: construct an item with the type's attached
validations. -/
def TrackingState.item_type {V : Type} (st : TrackingState V)
    (d : ItemDict V) : TrackingItem V :=
  ⟨d, st.itemValidations⟩

/-- The entries of
`{v.name: k for k, v in item_dict.iteritems() if isinstance(v, TransitionParameter)}`
in iteration order (placeholder name paired with its dict key). -/
def paramEntries {V : Type} (d : ItemDict V) : List (String × String) :=
  d.filterMap fun kv =>
    match kv.2 with
    | .param p => some (p.name, kv.1)
    | .val _ => none

/-- The comprehension dict itself, represented by its lookup behaviour:
a later entry with the same placeholder name shadows an earlier one, so
lookups read the reversed entry list. -/
def unvalidatedParams {V : Type} (d : ItemDict V) : List (String × String) :=
  (paramEntries d).reverse

/-- The loop `for name, value in parameters.iteritems():
item_dict.update({unvalidated_params[name]: value})`.  Returns the name
that raised `KeyError` (if any) together with the dict as mutated so far. -/
def substLoop {V : Type} (up : List (String × String)) :
    List (String × V) → ItemDict V → Option String × ItemDict V
  | [], d => (none, d)
  | (n, v) :: rest, d =>
    match List.lookup n up with
    | some key => substLoop up rest (dictUpdate d key (AttrValue.val v))
    | none => (some n, d)

/-- `TrackingState._validated_item(item_dict, parameters=None)`.  The second
component is the contents of the caller's `item_dict` after the call (the
loop mutates it in place). -/
def TrackingState._validated_item {V : Type} (st : TrackingState V)
    (item_dict : ItemDict V) (parameters : Option (List (String × V))) :
    Except PyErr (Option (TrackingItem V)) × ItemDict V :=
  let ps := parameters.getD []
  match substLoop (unvalidatedParams item_dict) ps item_dict with
  | (some missing, d') => (.error (.keyError missing), d')
  | (none, d') =>
    let item := st.item_type d'
    (.ok (if item.validate then some item else none), d')

/-- The item resolution at the top of `TrackingState.track`:
`if not isinstance(item, self.item_type): item = self._validated_item(item)`. -/
def trackItemOf {V : Type} (st : TrackingState V)
    (input : ItemDict V ⊕ TrackingItem V) :
    Except PyErr (Option (TrackingItem V)) :=
  match input with
  | .inr it => .ok (some it)
  | .inl d => (st._validated_item d none).1

/-- The consumption loop of `TrackingState.track`: raise on the first failed
result, return after the first successful result when `dry_run`, otherwise
consume to exhaustion (which performs the committing store mutation). -/
def trackConsume {V : Type} (dr : Bool) :
    List (TransitionValidationResult V) → (Store V → Store V) → Store V →
    Except PyErr Bool × Store V
  | [], commit, store => (.ok true, commit store)
  | r :: rest, commit, store =>
    if ¬ r.succeeded then
      (.error (.transitionValidationError r.message), store)
    else if dr then
      (.ok true, store)
    else
      trackConsume dr rest commit store

/-- `TrackingState.track(item, dry_run=None)`.  Note the source's coercion
`dry_run = True if dry_run is not None else False`: any provided argument,
`False` included, selects dry-run behaviour. -/
def TrackingState.track {V : Type} (st : TrackingState V) (store : Store V)
    (input : ItemDict V ⊕ TrackingItem V) (dry_run : Option Bool) :
    Except PyErr Bool × Store V :=
  match trackItemOf st input with
  | .error e => (.error e, store)
  | .ok none =>
    (.error (.transitionValidationError "Could not validate item to track it."),
      store)
  | .ok (some item) =>
    let dr := dry_run.isSome
    let g := st._track item
    trackConsume dr g.results g.commit store

/-- The gating loop of `TrackingStateMachine.transition`: consume exactly the
first result of a sequence.  Returns the captured parameters, the results not
yet consumed, and whether the sequence was exhausted (in which case its
committing effect has already run). -/
def gateLoop {V : Type} :
    List (TransitionValidationResult V) →
    Except PyErr (List (String × V) × List (TransitionValidationResult V) × Bool)
  | [] => .ok ([], [], true)
  | r :: rest =>
    if r.succeeded then .ok (r.parameters, rest, false)
    else .error (.transitionValidationError r.message)

/-- The commit pass `for validation in seq: if validation: raise ...` on a
sequence halted by `gateLoop`: an already-exhausted sequence yields nothing;
any remaining result is fatal (yielded results are truthy objects); an empty
remainder lets the sequence run to exhaustion, performing its commit. -/
def resumeSeq {V : Type} (remaining : List (TransitionValidationResult V))
    (exhausted : Bool) (commit : Store V → Store V) (store : Store V) :
    Except Unit (Store V) :=
  if exhausted then .ok store
  else
    match remaining with
    | [] => .ok (commit store)
    | _ :: _ => .error ()

/-- The full observable outcome of one `transition` call: the returned value
or raised error, both stores, and the post-call contents of the two caller
dicts (which `_validated_item` mutates in place). -/
structure TransResult (V : Type) where
  result : Except PyErr Bool
  fromStore : Store V
  toStore : Store V
  fromDict : ItemDict V
  toDict : ItemDict V

/-- tracking_state_machine.py `TrackingStateMachine` registries. -/
structure TrackingStateMachine (V : Type) where
  states : List (String × TrackingState V)
  transitions : List (String × (TrackingState V × TrackingState V))
  actions : List (String × TrackingState V)

/-- `TrackingStateMachine.transition(name, from_item_dict, to_item_dict,
dry_run=None)`, with the two affected stores threaded explicitly. -/
def TrackingStateMachine.transition {V : Type} (m : TrackingStateMachine V)
    (name : String) (from_item_dict to_item_dict : ItemDict V)
    (dry_run : Option Bool) (fromStore toStore : Store V) : TransResult V :=
  match List.lookup name m.transitions with
  | none =>
    ⟨.error (.transitionValidationError ("Unknown transition: " ++ name)),
      fromStore, toStore, from_item_dict, to_item_dict⟩
  | some (from_state, to_state) =>
    match from_state._validated_item from_item_dict none with
    | (.error e, fd') => ⟨.error e, fromStore, toStore, fd', to_item_dict⟩
    | (.ok none, fd') =>
      ⟨.error (.transitionValidationError "Could not validate from item"),
        fromStore, toStore, fd', to_item_dict⟩
    | (.ok (some from_item), fd') =>
      match from_state.ops name with
      | none =>
        ⟨.error (.attributeError name), fromStore, toStore, fd', to_item_dict⟩
      | some op =>
        let tg := op from_item
        match gateLoop tg.results with
        | .error e => ⟨.error e, fromStore, toStore, fd', to_item_dict⟩
        | .ok (validation_parameters, trest, texh) =>
          let fs1 := if texh then tg.commit fromStore else fromStore
          match to_state._validated_item to_item_dict (some validation_parameters) with
          | (.error e, td') => ⟨.error e, fs1, toStore, fd', td'⟩
          | (.ok none, td') =>
            ⟨.error (.transitionValidationError "Could not validate to item"),
              fs1, toStore, fd', td'⟩
          | (.ok (some to_item), td') =>
            let kg := to_state._track to_item
            match gateLoop kg.results with
            | .error e => ⟨.error e, fs1, toStore, fd', td'⟩
            | .ok (_, krest, kexh) =>
              let ts1 := if kexh then kg.commit toStore else toStore
              let dr := dry_run.getD false
              if dr then ⟨.ok true, fs1, ts1, fd', td'⟩
              else
                match resumeSeq trest texh tg.commit fs1 with
                | .error _ =>
                  ⟨.error (.transitionFatalError
                      "Transition from-state encountered fatal error"),
                    fs1, ts1, fd', td'⟩
                | .ok fs2 =>
                  match resumeSeq krest kexh kg.commit ts1 with
                  | .error _ =>
                    ⟨.error (.transitionFatalError
                        "Transition to-state encountered fatal error"),
                      fs2, ts1, fd', td'⟩
                  | .ok ts2 => ⟨.ok true, fs2, ts2, fd', td'⟩

/-- `TrackingStateMachine.add_state`. -/
def TrackingStateMachine.add_state {V : Type} (m : TrackingStateMachine V)
    (st : TrackingState V) : TrackingStateMachine V :=
  { m with states := dictUpdate m.states st.name st }

/-- `TrackingStateMachine.add_transition(name, from_state, to_state)`. -/
def TrackingStateMachine.add_transition {V : Type} (m : TrackingStateMachine V)
    (name from_state to_state : String) :
    Except PyErr (TrackingStateMachine V) :=
  match List.lookup from_state m.states with
  | none => .error (.stateValidationError "State None does not exist.")
  | some f =>
    match List.lookup to_state m.states with
    | none => .error (.stateValidationError "State None does not exist.")
    | some t =>
      if (f.ops name).isSome then
        .ok { m with transitions := dictUpdate m.transitions name (f, t) }
      else
        .error (.transitionValidationError
          ("State does not define transition " ++ name))

/-- `value is a TransitionParameter whose name is n` as a Boolean test. -/
def isParamNamed {V : Type} (n : String) : AttrValue V → Bool
  | .param p => p.name == n
  | .val _ => false

/- ## Concrete fixtures (all over `V := Nat`) used by witness theorems -/

/-- A successful validation result carrying the given output parameters. -/
def wRes (ps : List (String × Nat)) : TransitionValidationResult Nat :=
  ⟨true, "", ps⟩

/-- A "pending"-style state: its `move` sequence yields one successful
result supplying `qty = 5`, and commits by emptying its store. -/
def wFromState : TrackingState Nat where
  name := "pending"
  itemValidations := []
  ops := fun nm =>
    if nm = "move" then some fun _ => ⟨[wRes [("qty", 5)]], fun _ => []⟩
    else none
  _track := fun it => ⟨[wRes []], fun s => it :: s⟩

/-- A "shipped"-style state: its track sequence yields one successful result
and commits by consing the item onto its store. -/
def wToState : TrackingState Nat where
  name := "shipped"
  itemValidations := []
  ops := fun _ => none
  _track := fun it => ⟨[wRes []], fun s => it :: s⟩

def wMachine : TrackingStateMachine Nat where
  states := [("pending", wFromState), ("shipped", wToState)]
  transitions := [("move", (wFromState, wToState))]
  actions := []

def wFromDict : ItemDict Nat := [("sku", .val 1)]

def wToDict : ItemDict Nat := [("sku", .val 2), ("qty", .param ⟨"qty", none⟩)]

/-- `wToDict` after the `qty` placeholder is resolved to the supplied 5. -/
def wToDictSub : ItemDict Nat := [("sku", .val 2), ("qty", .val 5)]

/-- Like `wFromState` but its `move` sequence yields a second, residual
result after the gating one. -/
def w6FromState : TrackingState Nat where
  name := "pending"
  itemValidations := []
  ops := fun nm =>
    if nm = "move" then some fun _ => ⟨[wRes [], wRes []], fun _ => []⟩
    else none
  _track := fun it => ⟨[wRes []], fun s => it :: s⟩

def w6Machine : TrackingStateMachine Nat where
  states := [("pending", w6FromState), ("shipped", wToState)]
  transitions := [("move", (w6FromState, wToState))]
  actions := []

/-- A plain state whose track sequence yields one successful result and then
commits the item into the store. -/
def w4State : TrackingState Nat where
  name := "box"
  itemValidations := []
  ops := fun _ => none
  _track := fun it => ⟨[wRes []], fun s => it :: s⟩

def w4Item : TrackingItem Nat := ⟨[("sku", .val 9)], []⟩

def w5Pred : ItemDict Nat → Bool := fun d => d.length == 1

/-- A state whose item type attaches one validation predicate. -/
def w5State : TrackingState Nat where
  name := "checked"
  itemValidations := [w5Pred]
  ops := fun _ => none
  _track := fun it => ⟨[wRes []], fun s => it :: s⟩

def w5Dict : ItemDict Nat := [("sku", .val 3)]

/-- Registry fixture for `add_transition`: two states, no transitions yet. -/
def w8Machine : TrackingStateMachine Nat where
  states := [("pending", wFromState), ("shipped", wToState)]
  transitions := []
  actions := []

/-- An empty machine. -/
def w7Machine : TrackingStateMachine Nat := ⟨[], [], []⟩

def w9Dict : ItemDict Nat := [("qty", .param ⟨"p", none⟩)]

def w9Params : List (String × Nat) := [("p", 7)]

def w10Dict : ItemDict Nat := [("sku", .val 1)]

def w10Params : List (String × Nat) := [("missing", 2)]

/- ## Dictionary and Boolean helper lemmas -/

theorem lookup_cons {α : Type} (k a : String) (c : α) (l : List (String × α)) :
    List.lookup k ((a, c) :: l) = if k = a then some c else List.lookup k l := by
  by_cases h : k = a
  · subst h; simp [List.lookup]
  · simp [List.lookup, beq_eq_false_iff_ne.mpr h, h]

theorem lookup_map_replace {α : Type} (d : List (String × α)) (k : String)
    (v : α) (h : (List.lookup k d).isSome) :
    List.lookup k (d.map fun kv => if kv.1 == k then (k, v) else kv) = some v := by
  induction d with
  | nil => simp [List.lookup] at h
  | cons p rest ih =>
    rcases p with ⟨a, c⟩
    by_cases hak : a = k
    · simp only [List.map, beq_iff_eq.mpr hak, if_pos]
      rw [lookup_cons, if_pos rfl]
    · rw [lookup_cons, if_neg (fun hh => hak hh.symm)] at h
      simp only [List.map, beq_eq_false_iff_ne.mpr hak]
      rw [if_neg (by simp [beq_eq_false_iff_ne.mpr hak]), lookup_cons,
        if_neg (fun hh => hak hh.symm)]
      exact ih h

theorem lookup_append_single {α : Type} (d : List (String × α)) (k : String)
    (v : α) (h : List.lookup k d = none) :
    List.lookup k (d ++ [(k, v)]) = some v := by
  induction d with
  | nil => rw [List.nil_append, lookup_cons, if_pos rfl]
  | cons p rest ih =>
    rcases p with ⟨a, c⟩
    rw [lookup_cons] at h
    by_cases hk : k = a
    · rw [if_pos hk] at h; exact absurd h (by simp)
    · rw [if_neg hk] at h
      rw [List.cons_append, lookup_cons, if_neg hk]
      exact ih h

theorem lookup_dictUpdate_self {α : Type} (d : List (String × α)) (k : String)
    (v : α) : List.lookup k (dictUpdate d k v) = some v := by
  unfold dictUpdate
  by_cases h : (List.lookup k d).isSome
  · rw [if_pos h]; exact lookup_map_replace d k v h
  · rw [if_neg h]
    exact lookup_append_single d k v (Option.not_isSome_iff_eq_none.mp h)

theorem lookup_map_replace_ne {α : Type} (d : List (String × α))
    (k k' : String) (v : α) (hne : k' ≠ k) :
    List.lookup k' (d.map fun kv => if kv.1 == k then (k, v) else kv) =
      List.lookup k' d := by
  induction d with
  | nil => simp
  | cons p rest ih =>
    rcases p with ⟨a, c⟩
    by_cases hak : a = k
    · simp only [List.map, beq_iff_eq.mpr hak, if_pos]
      rw [lookup_cons, lookup_cons, if_neg hne, if_neg (hak ▸ hne)]
      exact ih
    · simp only [List.map, beq_eq_false_iff_ne.mpr hak]
      rw [if_neg (by simp [beq_eq_false_iff_ne.mpr hak]), lookup_cons,
        lookup_cons]
      by_cases hk'a : k' = a
      · rw [if_pos hk'a, if_pos hk'a]
      · rw [if_neg hk'a, if_neg hk'a]; exact ih

theorem lookup_append_single_ne {α : Type} (d : List (String × α))
    (k k' : String) (v : α) (hne : k' ≠ k) :
    List.lookup k' (d ++ [(k, v)]) = List.lookup k' d := by
  induction d with
  | nil =>
    rw [List.nil_append, lookup_cons, if_neg hne]
  | cons p rest ih =>
    rcases p with ⟨a, c⟩
    rw [List.cons_append, lookup_cons, lookup_cons]
    by_cases hk'a : k' = a
    · rw [if_pos hk'a, if_pos hk'a]
    · rw [if_neg hk'a, if_neg hk'a]; exact ih

theorem lookup_dictUpdate_ne {α : Type} (d : List (String × α)) (k k' : String)
    (v : α) (hne : k' ≠ k) :
    List.lookup k' (dictUpdate d k v) = List.lookup k' d := by
  unfold dictUpdate
  by_cases h : (List.lookup k d).isSome
  · rw [if_pos h]; exact lookup_map_replace_ne d k k' v hne
  · rw [if_neg h]; exact lookup_append_single_ne d k k' v hne

theorem lookup_mem {α : Type} {l : List (String × α)} {k : String} {v : α}
    (h : List.lookup k l = some v) : (k, v) ∈ l := by
  induction l with
  | nil => simp [List.lookup] at h
  | cons p rest ih =>
    rcases p with ⟨a, c⟩
    rw [lookup_cons] at h
    by_cases hk : k = a
    · rw [if_pos hk] at h
      injection h with h
      subst hk; subst h
      exact List.mem_cons_self _ _
    · rw [if_neg hk] at h
      exact List.mem_cons_of_mem _ (ih h)

theorem lookup_of_mem_nodup {α : Type} {l : List (String × α)}
    (hnd : (l.map Prod.fst).Nodup) {k : String} {v : α} (h : (k, v) ∈ l) :
    List.lookup k l = some v := by
  induction l with
  | nil => simp at h
  | cons p rest ih =>
    rcases p with ⟨a, c⟩
    rw [lookup_cons]
    rcases List.mem_cons.mp h with h1 | h1
    · injection h1 with h1 h2
      rw [if_pos h1, h2]
    · by_cases hk : k = a
      · exfalso
        subst hk
        have : k ∈ rest.map Prod.fst :=
          List.mem_map.mpr ⟨(k, v), h1, rfl⟩
        exact (List.nodup_cons.mp (by simpa using hnd)).1 this
      · rw [if_neg hk]
        exact ih (List.nodup_cons.mp (by simpa using hnd)).2 h1

theorem mem_nodup_lookup_eq {α : Type} {l : List (String × α)}
    (hnd : (l.map Prod.fst).Nodup) {k : String} {x y : α} (hm : (k, x) ∈ l)
    (hl : List.lookup k l = some y) : x = y := by
  have := lookup_of_mem_nodup hnd hm
  rw [this] at hl
  injection hl

theorem lookup_eq_none_iff {α : Type} (l : List (String × α)) (k : String) :
    List.lookup k l = none ↔ ∀ v, (k, v) ∉ l := by
  induction l with
  | nil => simp [List.lookup]
  | cons p rest ih =>
    rcases p with ⟨a, c⟩
    rw [lookup_cons]
    by_cases hk : k = a
    · subst hk
      simp only [if_pos rfl]
      constructor
      · intro h; exact absurd h (by simp)
      · intro h; exact absurd (List.mem_cons_self _ _) (h c)
    · rw [if_neg hk, ih]
      constructor
      · intro h v hv
        rcases List.mem_cons.mp hv with h1 | h1
        · exact hk (congrArg Prod.fst h1)
        · exact h v h1
      · intro h v hv
        exact h v (List.mem_cons_of_mem _ hv)

theorem foldl_and_eq_true (l : List Bool) (b : Bool) :
    (l.foldl (· && ·) b = true) ↔ (b = true ∧ ∀ x ∈ l, x = true) := by
  induction l generalizing b with
  | nil => simp
  | cons a rest ih =>
    rw [List.foldl_cons, ih]
    cases a <;> cases b <;> simp

/-- `TrackingItem.validate` is true exactly when every attached predicate
holds on the item's attributes. -/
theorem validate_iff {V : Type} (it : TrackingItem V) :
    it.validate = true ↔ ∀ f ∈ it.validations, f it.attrs = true := by
  unfold TrackingItem.validate
  rw [foldl_and_eq_true]
  simp

/- ## Parameter-substitution lemmas -/

/-- A placeholder found by dict lookup is listed in the comprehension dict:
with distinct dict keys and distinct placeholder names, the placeholder's
name maps back to its dict key. -/
theorem lookup_unvalidatedParams_some {V : Type} (d : ItemDict V)
    (hnames : ((paramEntries d).map Prod.fst).Nodup)
    {k : String} {p : TransitionParameter V}
    (h : List.lookup k d = some (.param p)) :
    List.lookup p.name (unvalidatedParams d) = some k := by
  have hmem : (p.name, k) ∈ paramEntries d :=
    List.mem_filterMap.mpr ⟨(k, AttrValue.param p), lookup_mem h, rfl⟩
  unfold unvalidatedParams
  apply lookup_of_mem_nodup
  · rw [List.map_reverse]
    exact List.nodup_reverse.mpr hnames
  · exact List.mem_reverse.mpr hmem

/-- Conversely, any comprehension entry pointing at key `k` carries the name
of the placeholder stored at `k` (dict keys distinct). -/
theorem unvalidatedParams_name_unique {V : Type} (d : ItemDict V)
    (hkeys : (d.map Prod.fst).Nodup)
    {k : String} {p : TransitionParameter V}
    (h : List.lookup k d = some (.param p))
    {n' : String} (h' : List.lookup n' (unvalidatedParams d) = some k) :
    n' = p.name := by
  have hmem : (n', k) ∈ paramEntries d :=
    List.mem_reverse.mp (lookup_mem h')
  rcases List.mem_filterMap.mp hmem with ⟨kv, hkv, hf⟩
  rcases kv with ⟨a, x⟩
  cases x with
  | val w => simp [paramEntries] at hf
  | param q =>
    have hq : q.name = n' ∧ a = k := by
      simpa [paramEntries, Prod.ext_iff] using hf
    rcases hq with ⟨hqn, rfl⟩
    have : AttrValue.param q = AttrValue.param p :=
      mem_nodup_lookup_eq hkeys hkv h
    cases this
    exact hqn.symm

/-- If no placeholder in `d` is named `n`, the comprehension dict has no
binding for `n`. -/
theorem lookup_unvalidatedParams_none {V : Type} (d : ItemDict V) (n : String)
    (h : ∀ kv ∈ d, isParamNamed n kv.2 = false) :
    List.lookup n (unvalidatedParams d) = none := by
  rw [lookup_eq_none_iff]
  intro k hk
  rcases List.mem_filterMap.mp (List.mem_reverse.mp hk) with ⟨kv, hkv, hf⟩
  rcases kv with ⟨a, x⟩
  cases x with
  | val w => simp [paramEntries] at hf
  | param q =>
    have hq : q.name = n ∧ a = k := by
      simpa [paramEntries, Prod.ext_iff] using hf
    have := h (a, AttrValue.param q) hkv
    simp [isParamNamed, hq.1] at this

/-- Substitution steps that never target key `k` leave the binding of `k`
unchanged. -/
theorem substLoop_notouch {V : Type} (up : List (String × String))
    (k : String) (params : List (String × V)) (d : ItemDict V)
    (h : ∀ nv ∈ params, List.lookup nv.1 up ≠ some k) :
    List.lookup k (substLoop up params d).2 = List.lookup k d := by
  induction params generalizing d with
  | nil => rfl
  | cons nv rest ih =>
    rcases nv with ⟨n, v⟩
    rcases hl : List.lookup n up with _ | key
    · simp only [substLoop, hl]
    · have hkey : key ≠ k := by
        intro hkk
        exact h (n, v) (List.mem_cons_self _ _) (hkk ▸ hl)
      simp only [substLoop, hl]
      rw [ih _ fun nv hnv => h nv (List.mem_cons_of_mem _ hnv)]
      exact lookup_dictUpdate_ne d key k _ (Ne.symm hkey)

/-- If every supplied name resolves through `up`, the substitution loop
raises no `KeyError`. -/
theorem substLoop_ok {V : Type} (up : List (String × String))
    (params : List (String × V)) (d : ItemDict V)
    (hall : ∀ nv ∈ params, (List.lookup nv.1 up).isSome) :
    (substLoop up params d).1 = none := by
  induction params generalizing d with
  | nil => rfl
  | cons nv rest ih =>
    rcases nv with ⟨n, v⟩
    rcases hl : List.lookup n up with _ | key
    · have := hall (n, v) (List.mem_cons_self _ _)
      rw [hl] at this
      simp at this
    · simp only [substLoop, hl]
      exact ih _ fun nv hnv => hall nv (List.mem_cons_of_mem _ hnv)

/-- If some supplied name fails to resolve through `up`, the substitution
loop raises a `KeyError`. -/
theorem substLoop_err {V : Type} (up : List (String × String))
    (params : List (String × V)) (d : ItemDict V)
    (h : ∃ nv ∈ params, List.lookup nv.1 up = none) :
    ∃ nm, (substLoop up params d).1 = some nm := by
  induction params generalizing d with
  | nil => simp at h
  | cons nv rest ih =>
    rcases nv with ⟨n, v⟩
    rcases hl : List.lookup n up with _ | key
    · exact ⟨n, by simp only [substLoop, hl]⟩
    · simp only [substLoop, hl]
      apply ih
      rcases h with ⟨nv', hnv', hnone⟩
      rcases List.mem_cons.mp hnv' with h1 | h1
      · rw [h1] at hnone
        rw [hnone] at hl
        cases hl
      · exact ⟨nv', h1, hnone⟩

/-- The key substitution lemma: if `n` is supplied with value `v`, `n`
resolves to key `k`, no other supplied name resolves to `k`, every supplied
name resolves, and supplied names are distinct, then after the loop the dict
binds `k` to the resolved value `v`. -/
theorem substLoop_point {V : Type} (up : List (String × String))
    (params : List (String × V)) (d : ItemDict V) (k n : String) (v : V)
    (hnv : List.lookup n params = some v)
    (hup : List.lookup n up = some k)
    (honly : ∀ nv ∈ params, nv.1 ≠ n → List.lookup nv.1 up ≠ some k)
    (hall : ∀ nv ∈ params, (List.lookup nv.1 up).isSome)
    (hnd : (params.map Prod.fst).Nodup) :
    List.lookup k (substLoop up params d).2 = some (AttrValue.val v) := by
  induction params generalizing d with
  | nil => simp [List.lookup] at hnv
  | cons nv rest ih =>
    rcases nv with ⟨m, w⟩
    rw [lookup_cons] at hnv
    by_cases hmn : n = m
    · rw [if_pos hmn] at hnv
      injection hnv with hnv
      subst hnv
      have hlm : List.lookup m up = some k := hmn ▸ hup
      simp only [substLoop, hlm]
      have hrest : ∀ nv ∈ rest, List.lookup nv.1 up ≠ some k := by
        intro nv hnvr
        apply honly nv (List.mem_cons_of_mem _ hnvr)
        intro hn1
        have hmk : m ∉ rest.map Prod.fst :=
          (List.nodup_cons.mp (by simpa using hnd)).1
        exact hmk (List.mem_map.mpr ⟨nv, hnvr, hn1.trans hmn⟩)
      rw [substLoop_notouch up k rest _ hrest]
      exact lookup_dictUpdate_self d k _
    · rw [if_neg hmn] at hnv
      have hm : m ≠ n := fun hh => hmn hh.symm
      have hlm := hall (m, w) (List.mem_cons_self _ _)
      rcases hlk : List.lookup m up with _ | key
      · rw [hlk] at hlm; simp at hlm
      · simp only [substLoop, hlk]
        exact ih _ hnv
          (fun nv hnvr hne => honly nv (List.mem_cons_of_mem _ hnvr) hne)
          (fun nv hnvr => hall nv (List.mem_cons_of_mem _ hnvr))
          (List.nodup_cons.mp (by simpa using hnd)).2

/- ## `_validated_item` and sequence-consumption lemmas -/

/-- With no parameter mapping, `_validated_item` performs no substitution:
it builds the item from the dict as given and leaves the dict untouched. -/
theorem validated_item_none {V : Type} (st : TrackingState V)
    (d : ItemDict V) :
    st._validated_item d none =
      (.ok (if (st.item_type d).validate then some (st.item_type d) else none),
        d) := rfl

/-- When every supplied parameter name resolves to a placeholder key, the
substitution loop succeeds and `_validated_item` validates the item built
from the substituted dict. -/
theorem validated_item_some {V : Type} (st : TrackingState V)
    (d : ItemDict V) (params : List (String × V))
    (hall : ∀ nv ∈ params,
      (List.lookup nv.1 (unvalidatedParams d)).isSome) :
    st._validated_item d (some params) =
      (let d' := (substLoop (unvalidatedParams d) params d).2
       (.ok (if (st.item_type d').validate then some (st.item_type d') else none),
         d')) := by
  unfold TrackingState._validated_item
  have hok := substLoop_ok (unvalidatedParams d) params d hall
  rcases hs : substLoop (unvalidatedParams d) params d with ⟨e, d'⟩
  rw [hs] at hok
  simp only at hok
  subst hok
  simp [hs]

/-- The dict component returned by `_validated_item` is the dict produced by
the substitution loop, whether or not the loop raised. -/
theorem validated_item_dict {V : Type} (st : TrackingState V)
    (d : ItemDict V) (params : Option (List (String × V))) :
    (st._validated_item d params).2 =
      (substLoop (unvalidatedParams d) (params.getD []) d).2 := by
  unfold TrackingState._validated_item
  rcases hs : substLoop (unvalidatedParams d) (params.getD []) d with ⟨e, d'⟩
  cases e <;> simp [hs]

/-- A fully successful sequence consumed without `dry_run` runs to
exhaustion and commits. -/
theorem trackConsume_commit {V : Type}
    (rs : List (TransitionValidationResult V)) (commit : Store V → Store V)
    (store : Store V) (hall : ∀ r ∈ rs, r.succeeded = true) :
    trackConsume false rs commit store = (.ok true, commit store) := by
  induction rs with
  | nil => rfl
  | cons r rest ih =>
    have hr := hall r (List.mem_cons_self _ _)
    simp only [trackConsume, hr]
    simp only [not_true, if_neg, if_false]
    exact ih fun r' hr' => hall r' (List.mem_cons_of_mem _ hr')

/-- With `dry_run`, consumption stops right after the first successful
result, leaving the store unchanged. -/
theorem trackConsume_dry {V : Type} (r : TransitionValidationResult V)
    (rest : List (TransitionValidationResult V)) (commit : Store V → Store V)
    (store : Store V) (hr : r.succeeded = true) :
    trackConsume true (r :: rest) commit store = (.ok true, store) := by
  simp [trackConsume, hr]

/-- Gating over a sequence whose first result succeeds captures its
parameters and halts without exhausting the sequence. -/
theorem gateLoop_success {V : Type} (r : TransitionValidationResult V)
    (rest : List (TransitionValidationResult V)) (hr : r.succeeded = true) :
    gateLoop (r :: rest) = .ok (r.parameters, rest, false) := by
  simp [gateLoop, hr]

/- ## Claim theorems -/

/-- C7: calling `transition` with a name absent from the transition registry
fails immediately with the unknown-transition `TransitionValidationError`:
no attribute mapping is validated and no State (store or dict) is touched. -/
theorem claim7_unknown_transition {V : Type} (m : TrackingStateMachine V)
    (name : String) (fd td : ItemDict V) (dry_run : Option Bool)
    (fs ts : Store V) (h : List.lookup name m.transitions = none) :
    m.transition name fd td dry_run fs ts =
      ⟨.error (.transitionValidationError ("Unknown transition: " ++ name)),
        fs, ts, fd, td⟩ := by
  unfold TrackingStateMachine.transition
  rw [h]

theorem claim7_witness :
    w7Machine.transition "unknown" [] [] none [] [] =
      ⟨.error (.transitionValidationError ("Unknown transition: " ++ "unknown")),
        [], [], [], []⟩ :=
  claim7_unknown_transition w7Machine "unknown" [] [] none [] [] rfl

/-- C5: whenever `_validated_item` returns normally, the returned optional
item is either the failure sentinel `none` or an item every attached
validation predicate accepts (vacuously when none are attached); an item
failing some attached predicate is never returned. -/
theorem claim5_validated_item_total {V : Type} (st : TrackingState V)
    (d : ItemDict V) (params : Option (List (String × V)))
    (o : Option (TrackingItem V))
    (h : (st._validated_item d params).1 = .ok o) :
    ∀ it, o = some it → ∀ f ∈ it.validations, f it.attrs = true := by
  intro it ho f hf
  subst ho
  simp only [TrackingState._validated_item] at h
  rcases hsub : substLoop (unvalidatedParams d) (params.getD []) d with ⟨e, d'⟩
  rw [hsub] at h
  cases e with
  | some nm => simp at h
  | none =>
    simp only at h
    by_cases hv : (st.item_type d').validate
    · rw [if_pos hv] at h
      injection h with h
      injection h with h
      subst h
      exact (validate_iff _).mp hv f hf
    · rw [if_neg hv] at h
      injection h with h
      cases h

theorem claim5_witness : w5Pred (w5State.item_type w5Dict).attrs = true :=
  claim5_validated_item_total w5State w5Dict none
    (some (w5State.item_type w5Dict)) rfl (w5State.item_type w5Dict) rfl
    w5Pred (List.mem_cons_self _ _)

/-- C8: `add_transition` raises `StateValidationError` when either named
state is unregistered (from-state checked first), raises
`TransitionValidationError` ("does not define transition") when the
from-state has no operation under the transition name, and otherwise records
the name mapped to the (fromState, toState) pair in the registry. -/
theorem claim8_add_transition {V : Type} (m : TrackingStateMachine V)
    (name fn tn : String) :
    (List.lookup fn m.states = none →
      ∃ msg, m.add_transition name fn tn =
        .error (.stateValidationError msg)) ∧
    (∀ f, List.lookup fn m.states = some f → List.lookup tn m.states = none →
      ∃ msg, m.add_transition name fn tn =
        .error (.stateValidationError msg)) ∧
    (∀ f t, List.lookup fn m.states = some f →
      List.lookup tn m.states = some t → f.ops name = none →
      ∃ msg, m.add_transition name fn tn =
        .error (.transitionValidationError msg)) ∧
    (∀ f t op, List.lookup fn m.states = some f →
      List.lookup tn m.states = some t → f.ops name = some op →
      ∃ m', m.add_transition name fn tn = .ok m' ∧
        List.lookup name m'.transitions = some (f, t)) := by
  refine ⟨?_, ?_, ?_, ?_⟩
  · intro h
    unfold TrackingStateMachine.add_transition
    rw [h]
    exact ⟨_, rfl⟩
  · intro f hf ht
    unfold TrackingStateMachine.add_transition
    rw [hf, ht]
    exact ⟨_, rfl⟩
  · intro f t hf ht hop
    unfold TrackingStateMachine.add_transition
    rw [hf, ht]
    simp only [hop, Option.isSome_none, Bool.false_eq_true, if_false]
    exact ⟨_, rfl⟩
  · intro f t op hf ht hop
    unfold TrackingStateMachine.add_transition
    rw [hf, ht]
    simp only [hop, Option.isSome_some, if_true]
    exact ⟨_, rfl, lookup_dictUpdate_self m.transitions name (f, t)⟩

theorem claim8_witness :
    ∃ m', w8Machine.add_transition "move" "pending" "shipped" = .ok m' ∧
      List.lookup "move" m'.transitions = some (wFromState, wToState) :=
  (claim8_add_transition w8Machine "move" "pending" "shipped").2.2.2
    wFromState wToState _ rfl rfl rfl

/-- C4 counterexample to the claim as stated: `track` invoked with `dryRun`
EQUAL TO FALSE (`some false`, an explicitly provided false, as the claim
says, rather than an omitted argument) stops after the first successful
result and performs no store mutation, because the source coerces
`dry_run = True if dry_run is not None else False`.  The commit the claim
demands would have produced `[w4Item]`, but the store stays `[]`. -/
theorem claim4_counterexample :
    w4State.track [] (.inr w4Item) (some false) = (.ok true, []) ∧
      (w4State._track w4Item).commit [] = [w4Item] :=
  ⟨rfl, rfl⟩

/-- C4 amended: `track` consumes `_track` to completion (committing the
store mutation) and returns true only when `dry_run` is omitted (`None`);
any PROVIDED `dry_run` argument — `false` included — makes it stop after the
first successful result without mutating the store. -/
theorem claim4_track_consumption {V : Type} (st : TrackingState V)
    (store : Store V) (input : ItemDict V ⊕ TrackingItem V)
    (item : TrackingItem V) (hv : trackItemOf st input = .ok (some item)) :
    ((∀ r ∈ (st._track item).results, r.succeeded = true) →
      st.track store input none = (.ok true, (st._track item).commit store)) ∧
    (∀ b r rest, (st._track item).results = r :: rest → r.succeeded = true →
      st.track store input (some b) = (.ok true, store)) := by
  constructor
  · intro hall
    unfold TrackingState.track
    rw [hv]
    simp only [Option.isSome_none]
    exact trackConsume_commit _ _ _ hall
  · intro b r rest hres hr
    unfold TrackingState.track
    rw [hv]
    simp only [Option.isSome_some, hres]
    exact trackConsume_dry r rest _ store hr

theorem claim4_witness :
    w4State.track [] (.inr w4Item) none = (.ok true, [w4Item]) ∧
      w4State.track [] (.inr w4Item) (some false) = (.ok true, []) := by
  constructor
  · exact (claim4_track_consumption w4State [] (.inr w4Item) w4Item rfl).1
      (by intro r hr; rw [List.mem_singleton.mp hr]; rfl)
  · exact (claim4_track_consumption w4State [] (.inr w4Item) w4Item rfl).2
      false (wRes []) [] rfl rfl

/-- C1: with `dryRun = true`, a transition whose inputs pass every gating
validation returns true and leaves both item stores unchanged (and the
from-dict untouched): neither halted sequence is resumed, so neither commit
side effect occurs.  The gating hypotheses express "pass all gating
validations": each sequence yields a successful first result, the from-item
validates, and the to-item (after parameter substitution) validates. -/
theorem claim1_dry_run_frame {V : Type} (m : TrackingStateMachine V)
    (name : String) (fd td : ItemDict V) (fs ts : Store V)
    (from_state to_state : TrackingState V)
    (from_item to_item : TrackingItem V)
    (op : TrackingItem V → GenOut V)
    (r s : TransitionValidationResult V)
    (rest srest : List (TransitionValidationResult V)) (td' : ItemDict V)
    (hlk : List.lookup name m.transitions = some (from_state, to_state))
    (hfv : from_state._validated_item fd none = (.ok (some from_item), fd))
    (hop : from_state.ops name = some op)
    (hres : (op from_item).results = r :: rest)
    (hr : r.succeeded = true)
    (htv : to_state._validated_item td (some r.parameters) =
      (.ok (some to_item), td'))
    (hts : (to_state._track to_item).results = s :: srest)
    (hs : s.succeeded = true) :
    m.transition name fd td (some true) fs ts =
      ⟨.ok true, fs, ts, fd, td'⟩ := by
  simp only [TrackingStateMachine.transition, hlk, hfv, hop, hres,
    gateLoop_success r rest hr, htv, hts, gateLoop_success s srest hs,
    Option.getD_some, if_false, if_true, Bool.false_eq_true]

theorem claim1_witness :
    wMachine.transition "move" wFromDict wToDict (some true) [] [] =
      ⟨.ok true, [], [], wFromDict, wToDictSub⟩ :=
  claim1_dry_run_frame wMachine "move" wFromDict wToDict [] []
    wFromState wToState (wFromState.item_type wFromDict)
    (wToState.item_type wToDictSub) _ (wRes [("qty", 5)]) (wRes [])
    [] [] wToDictSub rfl rfl rfl rfl rfl rfl rfl rfl

/-- C6: with `dryRun` false, after both gating results have succeeded, the
halted from-sequence is resumed first and then the halted track-sequence: if
either yields any further result the call raises `TransitionFatalError`
(for the first offending sequence); if both finish with no further results
the call returns true. -/
theorem claim6_resume_fatal_or_true {V : Type} (m : TrackingStateMachine V)
    (name : String) (fd td : ItemDict V) (fs ts : Store V)
    (dry_run : Option Bool)
    (from_state to_state : TrackingState V)
    (from_item to_item : TrackingItem V)
    (op : TrackingItem V → GenOut V)
    (r s : TransitionValidationResult V)
    (rest srest : List (TransitionValidationResult V)) (td' : ItemDict V)
    (hlk : List.lookup name m.transitions = some (from_state, to_state))
    (hfv : from_state._validated_item fd none = (.ok (some from_item), fd))
    (hop : from_state.ops name = some op)
    (hres : (op from_item).results = r :: rest)
    (hr : r.succeeded = true)
    (htv : to_state._validated_item td (some r.parameters) =
      (.ok (some to_item), td'))
    (hts : (to_state._track to_item).results = s :: srest)
    (hs : s.succeeded = true)
    (hdr : dry_run.getD false = false) :
    (rest ≠ [] →
      (m.transition name fd td dry_run fs ts).result =
        .error (.transitionFatalError
          "Transition from-state encountered fatal error")) ∧
    (rest = [] → srest ≠ [] →
      (m.transition name fd td dry_run fs ts).result =
        .error (.transitionFatalError
          "Transition to-state encountered fatal error")) ∧
    (rest = [] → srest = [] →
      (m.transition name fd td dry_run fs ts).result = .ok true) := by
  refine ⟨?_, ?_, ?_⟩
  · intro hrest
    simp only [TrackingStateMachine.transition, hlk, hfv, hop, hres,
      gateLoop_success r rest hr, htv, hts, gateLoop_success s srest hs, hdr,
      if_false, Bool.false_eq_true]
    rcases rest with _ | ⟨x, xs⟩
    · exact absurd rfl hrest
    · simp [resumeSeq]
  · intro hrest hsrest
    subst hrest
    simp only [TrackingStateMachine.transition, hlk, hfv, hop, hres,
      gateLoop_success r [] hr, htv, hts, gateLoop_success s srest hs, hdr,
      if_false, Bool.false_eq_true]
    rcases srest with _ | ⟨y, ys⟩
    · exact absurd rfl hsrest
    · simp [resumeSeq]
  · intro hrest hsrest
    subst hrest
    subst hsrest
    simp only [TrackingStateMachine.transition, hlk, hfv, hop, hres,
      gateLoop_success r [] hr, htv, hts, gateLoop_success s [] hs, hdr,
      if_false, Bool.false_eq_true]
    simp [resumeSeq]

theorem claim6_witness :
    (w6Machine.transition "move" wFromDict [("sku", .val 2)] none [] []).result =
      .error (.transitionFatalError
        "Transition from-state encountered fatal error") :=
  (claim6_resume_fatal_or_true w6Machine "move" wFromDict [("sku", .val 2)]
    [] [] none w6FromState wToState (w6FromState.item_type wFromDict)
    (wToState.item_type [("sku", .val 2)]) _ (wRes []) (wRes [])
    [wRes []] [] [("sku", .val 2)] rfl rfl rfl rfl rfl rfl rfl rfl rfl).1
    (by simp)

/-- C2: the parameters captured from the first successful result of the
from-state's transition sequence are applied to the to-mapping before the
to-item is validated: every attribute of the to-mapping holding a
`TransitionParameter` whose name appears in the captured mapping is replaced
by the supplied value (first conjunct, read off the post-call to-dict, which
is the dict the item is built from), and only then is the to-item
constructed and validated — if the item built from the substituted dict
fails validation, the call fails with the to-item validation error (second
conjunct).  Well-formedness hypotheses: dict keys and placeholder names are
distinct (Python dict keys are), parameter names are distinct (they are keys
of a Python dict), and every captured name matches some placeholder (else
the substitution loop raises `KeyError` before any to-item exists). -/
theorem claim2_params_before_validation {V : Type} (m : TrackingStateMachine V)
    (name : String) (fd td : ItemDict V) (dry_run : Option Bool)
    (fs ts : Store V) (from_state to_state : TrackingState V)
    (from_item : TrackingItem V) (op : TrackingItem V → GenOut V)
    (r : TransitionValidationResult V)
    (rest : List (TransitionValidationResult V))
    (hlk : List.lookup name m.transitions = some (from_state, to_state))
    (hfv : from_state._validated_item fd none = (.ok (some from_item), fd))
    (hop : from_state.ops name = some op)
    (hres : (op from_item).results = r :: rest)
    (hr : r.succeeded = true)
    (hkeys : (td.map Prod.fst).Nodup)
    (hnames : ((paramEntries td).map Prod.fst).Nodup)
    (hpnd : (r.parameters.map Prod.fst).Nodup)
    (hall : ∀ nv ∈ r.parameters,
      (List.lookup nv.1 (unvalidatedParams td)).isSome) :
    (∀ k p v, List.lookup k td = some (.param p) →
      List.lookup p.name r.parameters = some v →
      List.lookup k (m.transition name fd td dry_run fs ts).toDict =
        some (.val v)) ∧
    ((to_state.item_type
        (m.transition name fd td dry_run fs ts).toDict).validate = false →
      (m.transition name fd td dry_run fs ts).result =
        .error (.transitionValidationError "Could not validate to item")) := by
  have hsub := validated_item_some to_state td r.parameters hall
  simp only at hsub
  have htd : (m.transition name fd td dry_run fs ts).toDict =
      (substLoop (unvalidatedParams td) r.parameters td).2 := by
    by_cases hv : (to_state.item_type
        (substLoop (unvalidatedParams td) r.parameters td).2).validate = true
    · simp only [hv, if_true] at hsub
      simp only [TrackingStateMachine.transition, hlk, hfv, hop, hres,
        gateLoop_success r rest hr, hsub]
      repeat first | rfl | split
    · simp only [Bool.not_eq_true] at hv
      simp only [hv, Bool.false_eq_true, if_false] at hsub
      simp only [TrackingStateMachine.transition, hlk, hfv, hop, hres,
        gateLoop_success r rest hr, hsub]
  constructor
  · intro k p v hkp hpv
    rw [htd]
    refine substLoop_point (unvalidatedParams td) r.parameters td k p.name v
      hpv (lookup_unvalidatedParams_some td hnames hkp) ?_ hall hpnd
    intro nv hnv hne hcontra
    exact hne (unvalidatedParams_name_unique td hkeys hkp hcontra)
  · intro hvf
    rw [htd] at hvf
    simp only [TrackingStateMachine.transition, hlk, hfv, hop, hres,
      gateLoop_success r rest hr, hsub, hvf, Bool.false_eq_true, if_false]

theorem claim2_witness :
    List.lookup "qty"
      (wMachine.transition "move" wFromDict wToDict (some true) [] []).toDict =
      some (.val 5) :=
  (claim2_params_before_validation wMachine "move" wFromDict wToDict
    (some true) [] [] wFromState wToState (wFromState.item_type wFromDict) _
    (wRes [("qty", 5)]) [] rfl rfl rfl rfl rfl (by decide) (by decide)
    (by decide) (by decide)).1 "qty" ⟨"qty", none⟩ 5 rfl rfl

/-- C3: whenever `transition` raises any error other than
`TransitionFatalError` — a `TransitionValidationError` at any gating step
(unknown name, from-item validation, from-sequence first result, to-item
validation, to-track first result), a `KeyError` from substitution, or an
`AttributeError` from method lookup — neither state's store has been
mutated.  The host-contract hypothesis requires the looked-up transition's
two sequences to yield at least one result each (a generator yielding no
result runs its whole body, commit included, already during gating). -/
theorem claim3_non_fatal_atomic {V : Type} (m : TrackingStateMachine V)
    (name : String) (fd td : ItemDict V) (dry_run : Option Bool)
    (fs ts : Store V) (e : PyErr)
    (hseq : ∀ st1 st2, List.lookup name m.transitions = some (st1, st2) →
      (∀ op it, st1.ops name = some op → (op it).results ≠ []) ∧
      (∀ it, (st2._track it).results ≠ []))
    (he : (m.transition name fd td dry_run fs ts).result = .error e)
    (hnf : ∀ msg, e ≠ .transitionFatalError msg) :
    (m.transition name fd td dry_run fs ts).fromStore = fs ∧
    (m.transition name fd td dry_run fs ts).toStore = ts := by
  rcases hlk : List.lookup name m.transitions with _ | ⟨from_state, to_state⟩
  · simp [TrackingStateMachine.transition, hlk]
  · obtain ⟨hne1, hne2⟩ := hseq from_state to_state hlk
    have hfv := validated_item_none from_state fd
    by_cases hfvv : (from_state.item_type fd).validate = true
    · simp only [hfvv, if_true] at hfv
      rcases hop : from_state.ops name with _ | op
      · simp [TrackingStateMachine.transition, hlk, hfv, hop]
      · rcases hres : (op (from_state.item_type fd)).results with _ | ⟨r, rest⟩
        · exact absurd hres (hne1 op _ hop)
        · by_cases hr : r.succeeded = true
          · rcases htv : to_state._validated_item td (some r.parameters)
              with ⟨tres, td'⟩
            rcases tres with te | to_opt
            · simp [TrackingStateMachine.transition, hlk, hfv, hop, hres,
                gateLoop_success r rest hr, htv]
            · rcases to_opt with _ | to_item
              · simp [TrackingStateMachine.transition, hlk, hfv, hop, hres,
                  gateLoop_success r rest hr, htv]
              · rcases hts : (to_state._track to_item).results
                  with _ | ⟨s, srest⟩
                · exact absurd hts (hne2 to_item)
                · by_cases hs : s.succeeded = true
                  · rcases hdr : dry_run.getD false with _ | _
                    · rcases rest with _ | ⟨x, xs⟩
                      · rcases srest with _ | ⟨y, ys⟩
                        · simp [TrackingStateMachine.transition, hlk, hfv,
                            hop, hres, gateLoop_success r [] hr, htv, hts,
                            gateLoop_success s [] hs, hdr, resumeSeq] at he
                        · exfalso
                          simp [TrackingStateMachine.transition, hlk, hfv,
                            hop, hres, gateLoop_success r [] hr, htv, hts,
                            gateLoop_success s (y :: ys) hs, hdr,
                            resumeSeq] at he
                          exact hnf _ he.symm
                      · exfalso
                        simp [TrackingStateMachine.transition, hlk, hfv,
                          hop, hres, gateLoop_success r (x :: xs) hr, htv,
                          hts, gateLoop_success s srest hs, hdr,
                          resumeSeq] at he
                        exact hnf _ he.symm
                    · simp [TrackingStateMachine.transition, hlk, hfv, hop,
                        hres, gateLoop_success r rest hr, htv, hts,
                        gateLoop_success s srest hs, hdr] at he
                  · simp only [Bool.not_eq_true] at hs
                    simp [TrackingStateMachine.transition, hlk, hfv, hop,
                      hres, htv, hts, gateLoop, hr, hs]
          · simp only [Bool.not_eq_true] at hr
            simp [TrackingStateMachine.transition, hlk, hfv, hop, hres,
              gateLoop, hr]
    · simp only [Bool.not_eq_true] at hfvv
      simp only [hfvv, Bool.false_eq_true, if_false] at hfv
      simp [TrackingStateMachine.transition, hlk, hfv]

theorem claim3_witness :
    (wMachine.transition "nope" wFromDict wToDict none [] []).fromStore = [] ∧
      (wMachine.transition "nope" wFromDict wToDict none [] []).toStore = [] :=
  claim3_non_fatal_atomic wMachine "nope" wFromDict wToDict none [] []
    (.transitionValidationError ("Unknown transition: " ++ "nope"))
    (fun _ _ h => Option.noConfusion h) rfl
    (fun _ h => PyErr.noConfusion h)

/-- C9: parameter substitution in `_validated_item` mutates the
caller-supplied raw mapping in place — embedded here as the dict contents
the call hands back to the caller (e.g. the `toAttrs` object of
`transition`): for a raw mapping holding `TransitionParameter` placeholders
and a non-empty parameters mapping supplying values for their names, after
the call the caller's dict has each such placeholder entry overwritten with
the supplied value.  Well-formedness as in C2: dict keys, placeholder names
and supplied names are distinct, and every supplied name matches some
placeholder. -/
theorem claim9_in_place_mutation {V : Type} (st : TrackingState V)
    (d : ItemDict V) (params : List (String × V))
    (hkeys : (d.map Prod.fst).Nodup)
    (hnames : ((paramEntries d).map Prod.fst).Nodup)
    (hpnd : (params.map Prod.fst).Nodup)
    (hall : ∀ nv ∈ params, (List.lookup nv.1 (unvalidatedParams d)).isSome)
    (_hne : params ≠ []) :
    ∀ k p v, List.lookup k d = some (.param p) →
      List.lookup p.name params = some v →
      List.lookup k (st._validated_item d (some params)).2 =
        some (.val v) := by
  intro k p v hkp hpv
  rw [validated_item_dict]
  simp only [Option.getD_some]
  refine substLoop_point (unvalidatedParams d) params d k p.name v hpv
    (lookup_unvalidatedParams_some d hnames hkp) ?_ hall hpnd
  intro nv hnv hneq hcontra
  exact hneq (unvalidatedParams_name_unique d hkeys hkp hcontra)

theorem claim9_witness :
    List.lookup "qty" (w4State._validated_item w9Dict (some w9Params)).2 =
      some (.val 7) :=
  claim9_in_place_mutation w4State w9Dict w9Params (by decide) (by decide)
    (by decide) (by decide) (by decide) "qty" ⟨"p", none⟩ 7 rfl rfl

/-- C10: calling `_validated_item` with a parameters mapping containing a
name for which no value of the raw mapping is a `TransitionParameter` of
that name raises `KeyError` — an exception outside the engine's declared
error taxonomy — rather than returning the failure sentinel or raising
`TransitionValidationError`. -/
theorem claim10_keyerror {V : Type} (st : TrackingState V) (d : ItemDict V)
    (params : List (String × V))
    (hbad : ∃ nv ∈ params, ∀ kv ∈ d, isParamNamed nv.1 kv.2 = false) :
    ∃ key,
      (st._validated_item d (some params)).1 = .error (.keyError key) := by
  rcases hbad with ⟨nv, hnv, hno⟩
  have hnone : List.lookup nv.1 (unvalidatedParams d) = none :=
    lookup_unvalidatedParams_none d nv.1 hno
  rcases substLoop_err (unvalidatedParams d) params d ⟨nv, hnv, hnone⟩
    with ⟨nm, hnm⟩
  refine ⟨nm, ?_⟩
  rcases hs : substLoop (unvalidatedParams d) params d with ⟨e, d'⟩
  rw [hs] at hnm
  simp only at hnm
  subst hnm
  simp only [TrackingState._validated_item, Option.getD_some, hs]

theorem claim10_witness :
    ∃ key, (w4State._validated_item w10Dict (some w10Params)).1 =
      .error (.keyError key) :=
  claim10_keyerror w4State w10Dict w10Params
    ⟨("missing", 2), by decide, by decide⟩

end TSM
